import Mathlib

/-!
Shallow embedding of the `ancla` boltdb reader (crates/boltypes/src/lib.rs and
crates/ancla/src/db.rs) and proofs about its page decoding, meta selection,
freelist parsing, page iteration and point lookup.

Bytes are modelled as `List Nat` (one entry per `u8`); machine integers are
`Nat` with explicit truncation where the code truncates.  Fallible Rust code
(`Result`) becomes `Except`; a Rust panic (a failed `assert!`, an
`unreachable!`, an `unwrap` of `None` or an out-of-bounds index) becomes the
`PanicOr.panic` outcome.
-/

namespace Ancla

/-- A byte buffer: the Rust `&[u8]` / `Vec<u8>`, one `Nat` per byte. -/
abbrev Bytes := List Nat

/-- Little-endian reassembly of `sz` bytes starting at `off`, as performed by
`utils::read_value::<uN>` on a little-endian machine once its assert has
passed.  Bytes outside the buffer read as 0; every call site either guards the
length first or goes through `readValue?`, which models the assert. -/
def readLE (sz : Nat) (d : Bytes) (off : Nat) : Nat :=
  match sz with
  | 0 => 0
  | n + 1 => d.getD off 0 + 256 * readLE n d (off + 1)

/-- `utils::read_value::<uN>`: `assert!((data.len() - offset) >= size_of::<T>())`
then an unaligned little-endian read.  A failed assert (or the underflowing
`usize` subtraction when `offset > len`) is a Rust panic, modelled as `none`. -/
def readValue? (sz : Nat) (d : Bytes) (off : Nat) : Option Nat :=
  if off + sz ≤ d.length then some (readLE sz d off) else none

/-- `boltypes::Error`. -/
inductive Error where
  | TooSmallData (expect got : Nat)
  | UnexpectBucketLeaf
  | InvalidPageChecksum (expect got id : Nat)
  | InvalidPageMagic (expect got id : Nat)
  | InvalidPageVersion (expect got id : Nat)
  | InvalidData (msg : String)
deriving DecidableEq

/-- Equality of `Except` results is decidable when both components are. -/
instance {ε α : Type} [DecidableEq ε] [DecidableEq α] : DecidableEq (Except ε α) := fun a b =>
  match a, b with
  | .error e, .error f =>
    if h : e = f then isTrue (by rw [h]) else isFalse (by intro c; cases c; exact h rfl)
  | .error _, .ok _ => isFalse (by intro c; cases c)
  | .ok _, .error _ => isFalse (by intro c; cases c)
  | .ok x, .ok y =>
    if h : x = y then isTrue (by rw [h]) else isFalse (by intro c; cases c; exact h rfl)

/-- Outcome of code that can Rust-panic: `panic`, or the ordinary value. -/
inductive PanicOr (α : Type) where
  | panic : PanicOr α
  | ok : α → PanicOr α
deriving DecidableEq

/-- `PageHeader` (16 bytes on disk): id, flags, count, overflow. -/
structure PageHeader where
  id : Nat
  flags : Nat
  count : Nat
  overflow : Nat
deriving DecidableEq

/-- The union of the four defined `PageFlag` bits
(0x01 | 0x02 | 0x04 | 0x10). -/
def pageFlagMask : Nat := 0x17

/-- `bitflags`' `contains`: `bits & flag == flag`. -/
def flagContains (bits flag : Nat) : Bool := bits &&& flag == flag

def PageHeader.isBranchPage (h : PageHeader) : Bool := flagContains h.flags 0x01

def PageHeader.isLeafPage (h : PageHeader) : Bool := flagContains h.flags 0x02

def PageHeader.isMetaPage (h : PageHeader) : Bool := flagContains h.flags 0x04

def PageHeader.isFreelistPage (h : PageHeader) : Bool := flagContains h.flags 0x10

/-- `PageHeader::decode` (non-binrw path): little-endian fields, flags through
`PageFlag::from_bits_truncate` (keeps only the defined bits). -/
def PageHeader.decode (d : Bytes) : PageHeader :=
  { id := readLE 8 d 0
  , flags := readLE 2 d 8 &&& pageFlagMask
  , count := readLE 2 d 10
  , overflow := readLE 4 d 12 }

/-- `impl TryFrom<&[u8]> for PageHeader`. -/
def PageHeader.tryFrom (d : Bytes) : Except Error PageHeader :=
  if d.length < 16 then .error (.TooSmallData 16 d.length)
  else .ok (PageHeader.decode d)

/-- `BranchElementHeader` (16 bytes on disk). -/
structure BranchElementHeader where
  pos : Nat
  ksize : Nat
  pgid : Nat
deriving DecidableEq

def BranchElementHeader.decode (d : Bytes) : BranchElementHeader :=
  { pos := readLE 4 d 0, ksize := readLE 4 d 4, pgid := readLE 8 d 8 }

/-- `impl TryFrom<&[u8]> for BranchElementHeader`. -/
def BranchElementHeader.tryFrom (d : Bytes) : Except Error BranchElementHeader :=
  if d.length < 16 then .error (.TooSmallData 16 d.length)
  else .ok (BranchElementHeader.decode d)

/-- `LeafElementHeader` (16 bytes on disk). -/
structure LeafElementHeader where
  flags : Nat
  pos : Nat
  ksize : Nat
  vsize : Nat
deriving DecidableEq

def LeafElementHeader.decode (d : Bytes) : LeafElementHeader :=
  { flags := readLE 4 d 0, pos := readLE 4 d 4, ksize := readLE 4 d 8
  , vsize := readLE 4 d 12 }

/-- `impl TryFrom<&[u8]> for LeafElementHeader`. -/
def LeafElementHeader.tryFrom (d : Bytes) : Except Error LeafElementHeader :=
  if d.length < 16 then .error (.TooSmallData 16 d.length)
  else .ok (LeafElementHeader.decode d)

def LeafElementHeader.isBucket (h : LeafElementHeader) : Bool := h.flags == 0x01

/-- `BucketHeader` (16 bytes on disk). -/
structure BucketHeader where
  root : Nat
  sequence : Nat
deriving DecidableEq

def BucketHeader.decode (d : Bytes) : BucketHeader :=
  { root := readLE 8 d 0, sequence := readLE 8 d 8 }

/-- `impl TryFrom<&[u8]> for BucketHeader`. -/
def BucketHeader.tryFrom (d : Bytes) : Except Error BucketHeader :=
  if d.length < 16 then .error (.TooSmallData 16 d.length)
  else .ok (BucketHeader.decode d)

def BucketHeader.isInline (b : BucketHeader) : Bool := b.root == 0

def MAGIC_NUMBER : Nat := 0xED0CDAED

def DATAFILE_VERSION : Nat := 2

/-- One step of FNV-1a-64: xor in the byte, multiply by the FNV prime
modulo 2^64. -/
def fnv1a64step (h b : Nat) : Nat := ((h ^^^ b) * 0x100000001b3) % (2 ^ 64)

/-- Modelled from the spec: the checksum hash lives in the `fnv_rs`
dependency, not in this repository's sources.  Per the spec's words it is the
big-endian FNV-1a-64 of the input, so `Fnv64::hash` followed by
`u64::from_be_bytes(hash.as_bytes())` round-trips to the bare 64-bit FNV-1a
value computed here (standard offset basis and prime, modulo 2^64). -/
def fnv1a64 (bs : Bytes) : Nat := bs.foldl fnv1a64step 0xcbf29ce484222325

/-- `Meta` (64 bytes on disk at page offset 16; the unused `_flag` word is
omitted, the code always sets it to 0). -/
structure Meta where
  magic : Nat
  version : Nat
  page_size : Nat
  root_pgid : Nat
  root_sequence : Nat
  freelist_pgid : Nat
  max_pgid : Nat
  txid : Nat
  checksum : Nat
deriving DecidableEq

/-- `Meta::decode` (non-binrw path): little-endian fields at fixed offsets of
the page buffer. -/
def Meta.decode (d : Bytes) : Meta :=
  { magic := readLE 4 d 16
  , version := readLE 4 d 20
  , page_size := readLE 4 d 24
  , root_pgid := readLE 8 d 32
  , root_sequence := readLE 8 d 40
  , freelist_pgid := readLE 8 d 48
  , max_pgid := readLE 8 d 56
  , txid := readLE 8 d 64
  , checksum := readLE 8 d 72 }

/-- `impl TryFrom<&[u8]> for Meta`: length guard, decode, magic check, version
check, then the FNV-1a-64 checksum of bytes `[16..72]` against the stored
`checksum` field. -/
def Meta.tryFrom (d : Bytes) : Except Error Meta :=
  if d.length < 80 then .error (.TooSmallData 80 d.length)
  else
    let meta := Meta.decode d
    match PageHeader.tryFrom d with
    | .error e => .error e
    | .ok ph =>
      if meta.magic ≠ MAGIC_NUMBER then
        .error (.InvalidPageMagic MAGIC_NUMBER meta.magic ph.id)
      else if meta.version ≠ DATAFILE_VERSION then
        .error (.InvalidPageVersion DATAFILE_VERSION meta.version ph.id)
      else
        let actual := fnv1a64 ((d.drop 16).take 56)
        if meta.checksum ≠ actual then
          .error (.InvalidPageChecksum actual meta.checksum ph.id)
        else .ok meta

/-- `MetaPage`. -/
structure MetaPage where
  data : Bytes
  header : PageHeader
  page_size : Nat
  used : Nat
deriving DecidableEq

/-- `MetaPage::new`: header, size/overflow consistency check, fixed `used`
(`PAGE_HEADER_SIZE + size_of::<Meta>()` = 16 + 64). -/
def MetaPage.new (d : Bytes) (ps : Nat) : Except Error MetaPage :=
  match PageHeader.tryFrom d with
  | .error e => .error e
  | .ok h =>
    if ps * (h.overflow + 1) ≠ d.length then
      .error (.InvalidData "data size mismatch with page size and overflow")
    else .ok { data := d, header := h, page_size := ps, used := 16 + 64 }

/-- `MetaPage::meta`. -/
def MetaPage.meta (p : MetaPage) : Except Error Meta := Meta.tryFrom p.data

/-- `FreelistPage`. -/
structure FreelistPage where
  data : Bytes
  header : PageHeader
  page_size : Nat
  used : Nat
deriving DecidableEq

/-- `FreelistPage::calculate_used`: sentinel test against 0xFFFF; the sentinel
branch reads the true count from offset 16 through `read_value` (can panic).
The source always returns `Ok`, so the `Except` layer is omitted here. -/
def FreelistPage.calculateUsed (h : PageHeader) (d : Bytes) : PanicOr Nat :=
  if h.count ≠ 0xFFFF then .ok (16 + 0 + h.count * 8)
  else
    match readValue? 8 d 16 with
    | none => .panic
    | some n => .ok (16 + 8 + n * 8)

/-- `FreelistPage::new`. -/
def FreelistPage.new (d : Bytes) (ps : Nat) : PanicOr (Except Error FreelistPage) :=
  match PageHeader.tryFrom d with
  | .error e => .ok (.error e)
  | .ok h =>
    if ps * (h.overflow + 1) ≠ d.length then
      .ok (.error (.InvalidData "data size mismatch with page size and overflow"))
    else
      match FreelistPage.calculateUsed h d with
      | .panic => .panic
      | .ok u => .ok (.ok { data := d, header := h, page_size := ps, used := u })

/-- The id-reading loop of `FreelistPage::free_pages`: for `i` in
`[i, i+n)`, read the u64 at `i * 8 + PAGE_HEADER_SIZE + offset`
(here `base = PAGE_HEADER_SIZE + offset`). -/
def readPgidsLoop (d : Bytes) (base : Nat) : Nat → Nat → PanicOr (List Nat)
  | _, 0 => .ok []
  | i, n + 1 =>
    match readValue? 8 d (i * 8 + base) with
    | none => .panic
    | some v =>
      match readPgidsLoop d base (i + 1) n with
      | .panic => .panic
      | .ok rest => .ok (v :: rest)

/-- `FreelistPage::free_pages`.  NOTE: the source compares `header.count`
against `0xFF` here, unlike `calculate_used` (and the `count` field's own
documentation), which use `0xFFFF`. -/
def FreelistPage.freePages (p : FreelistPage) : PanicOr (Except Error (List Nat)) :=
  let h := p.header
  if ¬ h.isFreelistPage then .panic
  else if h.count ≠ 0xFF then
    match readPgidsLoop p.data (16 + 0) 0 h.count with
    | .panic => .panic
    | .ok ids => .ok (.ok ids)
  else
    match readValue? 8 p.data 16 with
    | none => .panic
    | some n =>
      match readPgidsLoop p.data (16 + 8) 0 n with
      | .panic => .panic
      | .ok ids => .ok (.ok ids)

/-- `BranchPage`. -/
structure BranchPage where
  data : Bytes
  header : PageHeader
  page_size : Nat
  used : Nat
deriving DecidableEq

/-- `BranchPage::calculate_used`: locate the last element header through
`data.get(start..)` (`None` iff `start > len`) and decode it. -/
def BranchPage.calculateUsed (h : PageHeader) (d : Bytes) : Except Error Nat :=
  if h.count = 0 then .ok 16
  else
    let start := 16 + (h.count - 1) * 16
    if start > d.length then
      .error (.InvalidData "slice out of bounds for branch element header")
    else
      match BranchElementHeader.tryFrom (d.drop start) with
      | .error e => .error e
      | .ok eh => .ok (start + eh.pos + eh.ksize)

/-- `BranchPage::new`. -/
def BranchPage.new (d : Bytes) (ps : Nat) : Except Error BranchPage :=
  match PageHeader.tryFrom d with
  | .error e => .error e
  | .ok h =>
    if ps * (h.overflow + 1) ≠ d.length then
      .error (.InvalidData "data size mismatch with page size and overflow")
    else
      match BranchPage.calculateUsed h d with
      | .error e => .error e
      | .ok u => .ok { data := d, header := h, page_size := ps, used := u }

/-- `BranchElement`: a key and the child page id. -/
structure BranchElement where
  key : Bytes
  pgid : Nat
deriving DecidableEq

/-- `BranchElement::from_page`. -/
def BranchElement.fromPage (page : BranchPage) (elem : BranchElementHeader)
    (idx : Nat) : Except Error BranchElement :=
  let start := 16 + idx * 16
  let keyStart := start + elem.pos
  let keyEnd := keyStart + elem.ksize
  if keyEnd > page.data.length then .error (.TooSmallData keyEnd page.data.length)
  else .ok { key := (page.data.drop keyStart).take elem.ksize, pgid := elem.pgid }

/-- The element loop of `BranchPage::branch_elements`: elements `i` to
`i + n - 1`. -/
def branchElementsLoop (p : BranchPage) : Nat → Nat → Except Error (List BranchElement)
  | _, 0 => .ok []
  | i, n + 1 =>
    let start := 16 + i * 16
    if start > p.data.length then
      .error (.InvalidData "slice out of bounds for branch element header")
    else
      match BranchElementHeader.tryFrom (p.data.drop start) with
      | .error e => .error e
      | .ok eh =>
        match BranchElement.fromPage p eh i with
        | .error e => .error e
        | .ok el =>
          match branchElementsLoop p (i + 1) n with
          | .error e => .error e
          | .ok rest => .ok (el :: rest)

/-- `BranchPage::branch_elements` (the leading `assert!` on the flag is a
panic). -/
def BranchPage.branchElements (p : BranchPage) : PanicOr (Except Error (List BranchElement)) :=
  if ¬ p.header.isBranchPage then .panic
  else .ok (branchElementsLoop p 0 p.header.count)

/-- `LeafPage`. -/
structure LeafPage where
  data : Bytes
  header : PageHeader
  page_size : Nat
  used : Nat
deriving DecidableEq

/-- `LeafPage::calculate_used`. -/
def LeafPage.calculateUsed (h : PageHeader) (d : Bytes) : Except Error Nat :=
  if h.count = 0 then .ok 16
  else
    let start := 16 + (h.count - 1) * 16
    if start > d.length then
      .error (.InvalidData "slice out of bounds for leaf element header")
    else
      match LeafElementHeader.tryFrom (d.drop start) with
      | .error e => .error e
      | .ok eh => .ok (start + eh.pos + eh.ksize + eh.vsize)

/-- `LeafPage::new`. -/
def LeafPage.new (d : Bytes) (ps : Nat) : Except Error LeafPage :=
  match PageHeader.tryFrom d with
  | .error e => .error e
  | .ok h =>
    if ps * (h.overflow + 1) ≠ d.length then
      .error (.InvalidData "data size mismatch with page size and overflow")
    else
      match LeafPage.calculateUsed h d with
      | .error e => .error e
      | .ok u => .ok { data := d, header := h, page_size := ps, used := u }

/-- `boltypes::KeyValue`. -/
structure BKeyValue where
  key : Bytes
  value : Bytes
deriving DecidableEq

/-- `KeyValue::from_page`. -/
def BKeyValue.fromPage (page : Bytes) (elem : LeafElementHeader) (idx : Nat) :
    Except Error BKeyValue :=
  if elem.isBucket then .error .UnexpectBucketLeaf
  else
    let start := 16 + idx * 16
    let keyStart := start + elem.pos
    let keyEnd := keyStart + elem.ksize
    let valueEnd := keyEnd + elem.vsize
    if valueEnd > page.length then .error (.TooSmallData valueEnd page.length)
    else
      .ok { key := (page.drop keyStart).take elem.ksize
          , value := (page.drop keyEnd).take elem.vsize }

/-- `boltypes::LeafElement`.  The `Bucket` and `InlineBucket` fields follow the
source order: name, root_pgid, pgid (the leaf page the element sits on). -/
inductive LeafElement where
  | Bucket (name : Bytes) (root_pgid : Nat) (pgid : Nat)
  | InlineBucket (name : Bytes) (root_pgid : Nat) (pgid : Nat) (items : List BKeyValue)
  | KeyValue (kv : BKeyValue)
deriving DecidableEq

/-- Keep only `KeyValue` items of an inline page, as the `collect` over
`match x { KeyValue(kv) => Ok(kv), _ => Err(..) }` does. -/
def collectInlineItems : List LeafElement → Except Error (List BKeyValue)
  | [] => .ok []
  | .KeyValue kv :: rest =>
    match collectInlineItems rest with
    | .error e => .error e
    | .ok r => .ok (kv :: r)
  | _ :: _ => .error (.InvalidData "unreachable: non-kv element in inline bucket")

mutual

/-- `LeafElement::from_page`.  `fuel` bounds the nesting depth of inline
buckets (each inline page is a strict sub-slice of its parent, so any fuel of
at least the buffer length is enough); exhausting it is treated as a panic. -/
def LeafElement.fromPage (fuel : Nat) (page : LeafPage) (elem : LeafElementHeader)
    (idx : Nat) : PanicOr (Except Error LeafElement) :=
  if ¬ elem.isBucket then
    match BKeyValue.fromPage page.data elem idx with
    | .error e => .ok (.error e)
    | .ok kv => .ok (.ok (.KeyValue kv))
  else
    let start := 16 + idx * 16
    let keyStart := start + elem.pos
    let keyEnd := keyStart + elem.ksize
    let valueEnd := keyEnd + elem.vsize
    if valueEnd > page.data.length then
      .ok (.error (.TooSmallData valueEnd page.data.length))
    else
      let key := (page.data.drop keyStart).take elem.ksize
      let value := (page.data.drop keyEnd).take elem.vsize
      match BucketHeader.tryFrom value with
      | .error e => .ok (.error e)
      | .ok bh =>
        if ¬ bh.isInline then
          .ok (.ok (.Bucket key bh.root page.header.id))
        else
          match fuel with
          | 0 => .panic
          | fuel' + 1 =>
            let inlineData := value.drop 16
            match LeafPage.new inlineData inlineData.length with
            | .error e => .ok (.error e)
            | .ok inlinePage =>
              match LeafPage.leafElements fuel' inlinePage with
              | .panic => .panic
              | .ok (.error e) => .ok (.error e)
              | .ok (.ok els) =>
                match collectInlineItems els with
                | .error e => .ok (.error e)
                | .ok items => .ok (.ok (.InlineBucket key bh.root page.header.id items))
termination_by (3 * fuel, 0)

/-- The element loop of `LeafPage::leaf_elements`: elements `i` to
`i + n - 1`. -/
def leafElementsLoop (fuel : Nat) (p : LeafPage) : Nat → Nat → PanicOr (Except Error (List LeafElement))
  | i, n + 1 =>
    let start := 16 + i * 16
    if start > p.data.length then
      .ok (.error (.InvalidData "slice out of bounds for leaf element header"))
    else
      match LeafElementHeader.tryFrom (p.data.drop start) with
      | .error e => .ok (.error e)
      | .ok eh =>
        match LeafElement.fromPage fuel p eh i with
        | .panic => .panic
        | .ok (.error e) => .ok (.error e)
        | .ok (.ok el) =>
          match leafElementsLoop fuel p (i + 1) n with
          | .panic => .panic
          | .ok (.error e) => .ok (.error e)
          | .ok (.ok rest) => .ok (.ok (el :: rest))
  | _, 0 => .ok (.ok [])
termination_by _i n => (3 * fuel + 1, n)

/-- `LeafPage::leaf_elements` (the leading `assert!` on the flag is a
panic). -/
def LeafPage.leafElements (fuel : Nat) (p : LeafPage) : PanicOr (Except Error (List LeafElement)) :=
  if ¬ p.header.isLeafPage then .panic
  else leafElementsLoop fuel p 0 p.header.count
termination_by (3 * fuel + 2, 0)

end

/-- `boltypes::Page`. -/
inductive BoltPage where
  | MetaPage (p : MetaPage)
  | FreelistPage (p : FreelistPage)
  | BranchPage (p : BranchPage)
  | LeafPage (p : LeafPage)
deriving DecidableEq

/-- `Page::new`: zero page-size check, header decode, dispatch on the flag
bits in the order meta, freelist, branch, leaf; otherwise the unknown-flags
error. -/
def Page.new (d : Bytes) (ps : Nat) : PanicOr (Except Error BoltPage) :=
  if ps = 0 then .ok (.error (.InvalidData "page size cannot be zero"))
  else
    match PageHeader.tryFrom d with
    | .error e => .ok (.error e)
    | .ok h =>
      if h.isMetaPage then
        match MetaPage.new d ps with
        | .error e => .ok (.error e)
        | .ok p => .ok (.ok (.MetaPage p))
      else if h.isFreelistPage then
        match FreelistPage.new d ps with
        | .panic => .panic
        | .ok (.error e) => .ok (.error e)
        | .ok (.ok p) => .ok (.ok (.FreelistPage p))
      else if h.isBranchPage then
        match BranchPage.new d ps with
        | .error e => .ok (.error e)
        | .ok p => .ok (.ok (.BranchPage p))
      else if h.isLeafPage then
        match LeafPage.new d ps with
        | .error e => .ok (.error e)
        | .ok p => .ok (.ok (.LeafPage p))
      else .ok (.error (.InvalidData "unknown page flags"))

/-- `Page::as_slice`. -/
def BoltPage.asSlice : BoltPage → Bytes
  | .MetaPage p => p.data
  | .FreelistPage p => p.data
  | .BranchPage p => p.data
  | .LeafPage p => p.data

/-- `Page::page_header`. -/
def BoltPage.pageHeader : BoltPage → PageHeader
  | .MetaPage p => p.header
  | .FreelistPage p => p.header
  | .BranchPage p => p.header
  | .LeafPage p => p.header

/-- `Page::used`. -/
def BoltPage.used : BoltPage → Nat
  | .MetaPage p => p.used
  | .FreelistPage p => p.used
  | .BranchPage p => p.used
  | .LeafPage p => p.used

/-- `Page::capacity`: the length of the underlying buffer. -/
def BoltPage.capacity (p : BoltPage) : Nat := p.asSlice.length

/-- `ancla::DatabaseError` (the variants `db.rs` constructs). -/
inductive DatabaseError where
  | TooSmallData (expect got : Nat)
  | FileNotFound (path : String)
  | IOError (path msg : String)
  | InvalidPageType (expect got id : Nat)
  | InvalidPageChecksum (expect got id : Nat)
  | InvalidPageMagic (expect got id : Nat)
  | InvalidPageVersion (expect got id : Nat)
  | InvalidMeta
  | Io
  | BoltTypes (e : Error)
deriving DecidableEq

/-- `ancla::PageType`. -/
inductive PageType where
  | Meta
  | DataLeaf
  | DataBranch
  | Freelist
  | Free
deriving DecidableEq

/-- `ancla::db::Element`. -/
inductive Element where
  | Branch (elems : List BranchElement)
  | Leaf (elems : List LeafElement)
deriving DecidableEq

/-- `ancla::db::Page` (the cached per-page record, not `boltypes::Page`). -/
structure DbPage where
  id : Nat
  typ : PageType
  overflow : Nat
  data : BoltPage
  elem : Option Element
deriving DecidableEq

/-- `ancla::PageInfo`. -/
structure PageInfo where
  id : Nat
  typ : PageType
  overflow : Nat
  capacity : Nat
  used : Nat
  parent_page_id : Option Nat
deriving DecidableEq

/-- `ancla::db::KeyValue`. -/
structure KeyValue where
  key : Bytes
  value : Bytes
  depth : Nat
deriving DecidableEq

/-- `DBInner::read`: seek to `start` and read exactly `size` bytes; a short
read is a panic. -/
def readExact (file : Bytes) (start size : Nat) : PanicOr Bytes :=
  if start + size ≤ file.length then .ok ((file.drop start).take size)
  else .panic

/-- `DBInner::read_page` (the cache is transparent: it stores exactly this
function's result).  Reads the header, then the full `(overflow + 1)`-page
buffer, builds the `boltypes::Page` and decodes branch or leaf elements.  The
leaf-element fuel is the buffer length, which bounds inline-bucket nesting. -/
def readPage (file : Bytes) (ps pgid : Nat) : PanicOr (Except DatabaseError DbPage) :=
  match readExact file (pgid * ps) 16 with
  | .panic => .panic
  | .ok hdata =>
    match PageHeader.tryFrom hdata with
    | .error e => .ok (.error (.BoltTypes e))
    | .ok ph =>
      match readExact file (pgid * ps) (ps * (ph.overflow + 1)) with
      | .panic => .panic
      | .ok d =>
        match Page.new d ps with
        | .panic => .panic
        | .ok (.error e) => .ok (.error (.BoltTypes e))
        | .ok (.ok pd) =>
          match pd with
          | .MetaPage _ =>
            .ok (.ok { id := pgid, typ := .Meta, overflow := ph.overflow
                     , data := pd, elem := none })
          | .FreelistPage _ =>
            .ok (.ok { id := pgid, typ := .Freelist, overflow := ph.overflow
                     , data := pd, elem := none })
          | .LeafPage leaf =>
            match LeafPage.leafElements d.length leaf with
            | .panic => .panic
            | .ok (.error e) => .ok (.error (.BoltTypes e))
            | .ok (.ok els) =>
              .ok (.ok { id := pgid, typ := .DataLeaf, overflow := ph.overflow
                       , data := pd, elem := some (.Leaf els) })
          | .BranchPage br =>
            match BranchPage.branchElements br with
            | .panic => .panic
            | .ok (.error e) => .ok (.error (.BoltTypes e))
            | .ok (.ok els) =>
              .ok (.ok { id := pgid, typ := .DataBranch, overflow := ph.overflow
                       , data := pd, elem := some (.Branch els) })

/-- `DBInner::initialize`: read page 0, decode its meta (`?` propagates any
error), then page 1 likewise; the final `InvalidMeta` check is kept verbatim
from the source even though both options are `Some` at that point.  The
`unreachable!` arms (a page 0/1 that is not a meta page) are panics.  Returns
the `(meta0, meta1)` the method stores on success. -/
def initDB (file : Bytes) (ps : Nat) : PanicOr (Except DatabaseError (Meta × Meta)) :=
  match readPage file ps 0 with
  | .panic => .panic
  | .ok (.error e) => .ok (.error e)
  | .ok (.ok d0) =>
    match d0.data with
    | .MetaPage mp0 =>
      (match MetaPage.meta mp0 with
       | .error e => .ok (.error (.BoltTypes e))
       | .ok m0 =>
         match readPage file ps 1 with
         | .panic => .panic
         | .ok (.error e) => .ok (.error e)
         | .ok (.ok d1) =>
           match d1.data with
           | .MetaPage mp1 =>
             (match MetaPage.meta mp1 with
              | .error e => .ok (.error (.BoltTypes e))
              | .ok m1 =>
                if (some m0).isNone && (some m1).isNone then .ok (.error .InvalidMeta)
                else .ok (.ok (m0, m1)))
           | _ => .panic)
    | _ => .panic

/-- `DBInner::get_meta`: pick the stored meta with the larger `txid`; a `None`
on one side falls back to the other, unwrapping `None` on both sides is a
panic.  Returns the meta and its page id. -/
def getMeta (m0 m1 : Option Meta) : PanicOr (Meta × Nat) :=
  match m0 with
  | none =>
    match m1 with
    | none => .panic
    | some b => .ok (b, 1)
  | some a =>
    match m1 with
    | none => .ok (a, 0)
    | some b => if b.txid < a.txid then .ok (a, 0) else .ok (b, 1)

/-- `ancla::db::PageIterItem`. -/
structure PageIterItem where
  parent_page_id : Option Nat
  page_id : Nat
  typ : PageType
deriving DecidableEq

/-- `<PageIterator as Iterator>::next`.  The iterator state is its stack
(`remove(0)` pops the front, `push` appends at the back); the result is
`none` when the stack is empty, otherwise the yielded item together with the
new stack. -/
def pageIterNext (file : Bytes) (ps : Nat) (stack : List PageIterItem) :
    PanicOr (Option (Except DatabaseError PageInfo × List PageIterItem)) :=
  match stack with
  | [] => .ok none
  | item :: rest =>
    if item.typ = PageType.Free then
      .ok (some (.ok { id := item.page_id, typ := .Free, overflow := 0
                     , capacity := 4096, used := 0, parent_page_id := none }, rest))
    else
      match readPage file ps item.page_id with
      | .panic => .panic
      | .ok (.error e) => .ok (some (.error e, rest))
      | .ok (.ok data) =>
        if data.typ = PageType.Meta then
          .ok (some (.ok { id := data.id, typ := .Meta, overflow := data.overflow
                         , capacity := data.data.capacity, used := data.data.used
                         , parent_page_id := none }, rest))
        else if data.typ = PageType.Freelist then
          match PageHeader.tryFrom data.data.asSlice with
          | .error e => .ok (some (.error (.BoltTypes e), rest))
          | .ok page =>
            match data.data with
            | .FreelistPage fl =>
              (match FreelistPage.freePages fl with
               | .panic => .panic
               | .ok (.error e) => .ok (some (.error (.BoltTypes e), rest))
               | .ok (.ok ids) =>
                 .ok (some (.ok { id := item.page_id, typ := .Freelist
                                , overflow := page.overflow
                                , capacity := data.data.capacity
                                , used := data.data.used, parent_page_id := none },
                   rest ++ ids.map fun i =>
                     { parent_page_id := none, page_id := i, typ := PageType.Free })))
            | _ => .panic
        else
          match PageHeader.tryFrom data.data.asSlice with
          | .error e => .ok (some (.error (.BoltTypes e), rest))
          | .ok page =>
            match data.elem with
            | none => .panic
            | some (.Branch branchElements) =>
              .ok (some (.ok { id := item.page_id, typ := .DataBranch
                             , overflow := data.overflow
                             , capacity := data.data.capacity
                             , used := data.data.used
                             , parent_page_id := item.parent_page_id },
                rest ++ branchElements.map fun b =>
                  { parent_page_id := some item.page_id, page_id := b.pgid
                  , typ := PageType.DataBranch }))
            | some (.Leaf leafElements) =>
              .ok (some (.ok { id := item.page_id, typ := .DataLeaf
                             , overflow := page.overflow
                             , capacity := data.data.capacity
                             , used := data.data.used
                             , parent_page_id := item.parent_page_id },
                rest ++ (leafElements.filterMap fun le =>
                  match le with
                  | .Bucket _ _ pgid =>
                    some { parent_page_id := some item.page_id, page_id := pgid
                         , typ := PageType.DataLeaf }
                  | _ => none)))

/-- Three-way comparison of machine integers: `<u8 as Ord>::cmp`. -/
def natCmp (a b : Nat) : Ordering :=
  if a < b then .lt else if a = b then .eq else .gt

/-- Three-way comparison of byte strings: `<[u8] as Ord>::cmp`, the
lexicographic order `binary_search_by_key` uses. -/
def byteCmp : Bytes → Bytes → Ordering
  | [], [] => .eq
  | [], _ :: _ => .lt
  | _ :: _, [] => .gt
  | a :: as, b :: bs =>
    match natCmp a b with
    | .eq => byteCmp as bs
    | o => o

/-- `a` is strictly below `b` in the byte-string order. -/
def byteLt (a b : Bytes) : Prop := byteCmp a b = .lt

instance (a b : Bytes) : Decidable (byteLt a b) := by
  unfold byteLt; infer_instance

/-- Result of `slice::binary_search_by`: `Ok(idx)` or `Err(insertion)`. -/
inductive SearchResult where
  | found (i : Nat)
  | notFound (i : Nat)
deriving DecidableEq

/-- The loop of `slice::binary_search_by` over the element keys `ks`,
comparing `ks[mid]` with the target `k`: `Less` moves `left` past `mid`,
`Greater` moves `right` to `mid`, equality returns the index. -/
def bsLoop (ks : List Bytes) (k : Bytes) (lo hi : Nat) : SearchResult :=
  if _h : lo < hi then
    match byteCmp (ks.getD (lo + (hi - lo) / 2) []) k with
    | .lt => bsLoop ks k (lo + (hi - lo) / 2 + 1) hi
    | .gt => bsLoop ks k lo (lo + (hi - lo) / 2)
    | .eq => .found (lo + (hi - lo) / 2)
  else .notFound lo
termination_by hi - lo
decreasing_by
  · omega
  · omega

/-- `branch_elements.binary_search_by_key(&key, |elem| elem.key)`. -/
def rustBinarySearch (ks : List Bytes) (k : Bytes) : SearchResult :=
  bsLoop ks k 0 ks.length

/-- The child index `get_key_value_inner` picks at a branch page:
the binary-search hit index, or `if idx > 0 { idx - 1 } else { 0 }` on a
miss. -/
def branchIndex (elems : List BranchElement) (k : Bytes) : Nat :=
  match rustBinarySearch (elems.map fun e => e.key) k with
  | .found i => i
  | .notFound i => if i > 0 then i - 1 else 0

mutual

/-- `DBInner::get_key_value_inner`.  `fuel` bounds the recursion depth (the
source recursion is unbounded in the page graph); exhausting it is a panic.
At a branch page the single child `branch_elements[index]` is visited (an
out-of-range index is a Rust panic); at a leaf page the elements are scanned
in order. -/
def getKeyValueInner (file : Bytes) (ps : Nat) :
    Nat → List Bytes → Bytes → Nat → PanicOr (Except DatabaseError (Option KeyValue))
  | 0, _, _, _ => .panic
  | fuel + 1, buckets, key, pgid =>
    match readPage file ps pgid with
    | .panic => .panic
    | .ok (.error e) => .ok (.error e)
    | .ok (.ok data) =>
      match data.elem with
      | none => .ok (.ok none)
      | some (.Branch branchElements) =>
        match branchElements.get? (branchIndex branchElements key) with
        | none => .panic
        | some el => getKeyValueInner file ps fuel buckets key el.pgid
      | some (.Leaf leafElements) =>
        leafLookupLoop file ps fuel leafElements buckets key
termination_by fuel _ _ _ => (fuel, 0, 0)

/-- The leaf-element `for` loop of `get_key_value_inner`: key/value elements
match when `buckets` is empty; a named sub-bucket recurses with the bucket
path popped; an inline bucket is scanned when it is the only path element
left; everything else falls through to the next element, and the loop ends
with `Ok(None)`. -/
def leafLookupLoop (file : Bytes) (ps fuel : Nat) (elems : List LeafElement)
    (buckets : List Bytes) (key : Bytes) :
    PanicOr (Except DatabaseError (Option KeyValue))
  :=
  match elems with
  | [] => .ok (.ok none)
  | .KeyValue kv :: rest =>
    if kv.key = key ∧ buckets = [] then
      .ok (.ok (some { key := kv.key, value := kv.value, depth := 0 }))
    else leafLookupLoop file ps fuel rest buckets key
  | .Bucket name _ pgid :: rest =>
    match buckets with
    | [] => leafLookupLoop file ps fuel rest buckets key
    | b0 :: brest =>
      if name = b0 then getKeyValueInner file ps fuel brest key pgid
      else leafLookupLoop file ps fuel rest buckets key
  | .InlineBucket name _ _ items :: rest =>
    match buckets with
    | [b0] =>
      if name = b0 then
        match items.find? fun item => item.key == key with
        | some item =>
          .ok (.ok (some { key := item.key, value := item.value, depth := 0 }))
        | none => leafLookupLoop file ps fuel rest buckets key
      else leafLookupLoop file ps fuel rest buckets key
    | _ => leafLookupLoop file ps fuel rest buckets key
termination_by (fuel, 1, elems.length)

end

/-- `DB::get_key_value`: run the lookup from the active meta's root and
squash any error to `None` (`.ok()?`). -/
def getKeyValue (file : Bytes) (ps : Nat) (m0 m1 : Option Meta) (fuel : Nat)
    (buckets : List Bytes) (key : Bytes) : PanicOr (Option KeyValue) :=
  match getMeta m0 m1 with
  | .panic => .panic
  | .ok (meta, _) =>
    match getKeyValueInner file ps fuel buckets key meta.root_pgid with
    | .panic => .panic
    | .ok (.error _) => .ok none
    | .ok (.ok v) => .ok v

/-- The position at which `k` would be inserted into the sorted key list `ks`
to keep it sorted: the number of keys strictly below `k`. -/
def insertionPoint (ks : List Bytes) (k : Bytes) : Nat :=
  ks.countP fun b => byteCmp b k == Ordering.lt

/-- The key list is strictly increasing (adjacent comparison). -/
def strictSorted : List Bytes → Bool
  | [] => true
  | [_] => true
  | a :: b :: rest => (byteCmp a b == Ordering.lt) && strictSorted (b :: rest)

/-- Whether an `Except` result is `Ok`. -/
def isOkE {ε α : Type} : Except ε α → Bool
  | .ok _ => true
  | .error _ => false

/-! Concrete inputs used by witnesses and counterexamples. -/

/-- `v` as `n` little-endian bytes. -/
def toLE (n v : Nat) : Bytes :=
  match n with
  | 0 => []
  | k + 1 => v % 256 :: toLE k (v / 256)

/-- The 56 meta bytes at page offsets `[16..72)`: magic, version, page_size,
unused flag word, root_pgid, root_sequence, freelist_pgid, max_pgid, txid. -/
def metaBody (ps root freelist maxp txid : Nat) : Bytes :=
  toLE 4 MAGIC_NUMBER ++ toLE 4 DATAFILE_VERSION ++ toLE 4 ps ++ toLE 4 0 ++
  toLE 8 root ++ toLE 8 0 ++ toLE 8 freelist ++ toLE 8 maxp ++ toLE 8 txid

/-- A full meta page: 16-byte header (meta flag), meta body, stored checksum,
zero padding up to the page size. -/
def metaPageBytes (ps id root freelist maxp txid cksum : Nat) : Bytes :=
  toLE 8 id ++ [0x04, 0] ++ toLE 2 0 ++ toLE 4 0 ++
  metaBody ps root freelist maxp txid ++ toLE 8 cksum ++ List.replicate (ps - 80) 0

/-- Page 0 of the corrupt-meta file: meta page whose stored checksum is 0. -/
def page0C2 : Bytes := metaPageBytes 128 0 3 2 4 5 0

/-- Page 1 of the corrupt-meta file: a fully valid meta page, txid 6. -/
def page1C2 : Bytes := metaPageBytes 128 1 3 2 4 6 (fnv1a64 (metaBody 128 3 2 4 6))

/-- A 256-byte database file (page size 128): corrupt meta 0, valid meta 1. -/
def fileC2 : Bytes := page0C2 ++ page1C2

/-- A 40-byte freelist page with `count = 0xFF`: the u64 at offset 16 is 2 and
the u64s at offsets 24 and 32 are 10 and 11. -/
def ffData : Bytes :=
  [3, 0, 0, 0, 0, 0, 0, 0, 0x10, 0, 0xFF, 0, 0, 0, 0, 0,
   2, 0, 0, 0, 0, 0, 0, 0, 10, 0, 0, 0, 0, 0, 0, 0, 11, 0, 0, 0, 0, 0, 0, 0]

/-- The `FreelistPage` built from `ffData` (page size 40). -/
def ffPage : FreelistPage :=
  { data := ffData, header := ⟨3, 0x10, 0xFF, 0⟩, page_size := 40, used := 16 + 0xFF * 8 }

/-- A 16-byte freelist page whose `count` is the length-prefix sentinel
0xFFFF: `calculate_used` must read a u64 at offset 16, past the buffer. -/
def flPanic16 : Bytes := [0, 0, 0, 0, 0, 0, 0, 0, 0x10, 0, 0xFF, 0xFF, 0, 0, 0, 0]

/-- A 16-byte page whose flags word is 0x03: both the Branch and the Leaf bit
set, not a meta or freelist page. -/
def flagBoth16 : Bytes := [1, 0, 0, 0, 0, 0, 0, 0, 0x03, 0, 0, 0, 0, 0, 0, 0]

/-- A 50-byte file holding one branch page (page size 50) with two elements:
keys `[97]` and `[99]`, children 8 and 9. -/
def brFile : Bytes :=
  [0, 0, 0, 0, 0, 0, 0, 0, 1, 0, 2, 0, 0, 0, 0, 0,
   32, 0, 0, 0, 1, 0, 0, 0, 8, 0, 0, 0, 0, 0, 0, 0,
   17, 0, 0, 0, 1, 0, 0, 0, 9, 0, 0, 0, 0, 0, 0, 0,
   97, 99]

/-- The decoded elements of the `brFile` branch page. -/
def brElems : List BranchElement := [⟨[97], 8⟩, ⟨[99], 9⟩]

/-- The `DbPage` that `read_page` produces for page 0 of `brFile`. -/
def dpBr : DbPage :=
  { id := 0, typ := .DataBranch, overflow := 0
  , data := .BranchPage { data := brFile, header := ⟨0, 1, 2, 0⟩, page_size := 50, used := 50 }
  , elem := some (.Branch brElems) }

/-- A meta with txid 7 (all other fields 0). -/
def mtxA : Meta := ⟨0, 0, 0, 0, 0, 0, 0, 7, 0⟩

/-- Another meta with txid 7 (other fields distinct from `mtxA`). -/
def mtxB : Meta := ⟨1, 2, 3, 4, 5, 6, 9, 7, 8⟩

/-- A meta whose root page id is 0 (all fields 0). -/
def mRoot0 : Meta := ⟨0, 0, 0, 0, 0, 0, 0, 0, 0⟩

/-- 32 zero bytes: with page size 16, page 0 decodes a header whose flags are
0, so `Page::new` fails with the unknown-flags error. -/
def fileZ : Bytes := List.replicate 32 0

/-! ## Theorems -/

/-- C7: every 16-byte fixed-layout header decoder (`PageHeader`,
`BranchElementHeader`, `LeafElementHeader`, `BucketHeader`) fails with
`TooSmallData{expect = 16, got = len}` on inputs shorter than 16 bytes, and on
inputs of at least 16 bytes succeeds with no further validation, reading every
multi-byte field little-endian at its fixed offset. -/
theorem c7_header_decoders (d : Bytes) :
    (d.length < 16 →
      PageHeader.tryFrom d = .error (.TooSmallData 16 d.length) ∧
      BranchElementHeader.tryFrom d = .error (.TooSmallData 16 d.length) ∧
      LeafElementHeader.tryFrom d = .error (.TooSmallData 16 d.length) ∧
      BucketHeader.tryFrom d = .error (.TooSmallData 16 d.length)) ∧
    (16 ≤ d.length →
      PageHeader.tryFrom d =
        .ok ⟨readLE 8 d 0, readLE 2 d 8 &&& pageFlagMask, readLE 2 d 10, readLE 4 d 12⟩ ∧
      BranchElementHeader.tryFrom d = .ok ⟨readLE 4 d 0, readLE 4 d 4, readLE 8 d 8⟩ ∧
      LeafElementHeader.tryFrom d =
        .ok ⟨readLE 4 d 0, readLE 4 d 4, readLE 4 d 8, readLE 4 d 12⟩ ∧
      BucketHeader.tryFrom d = .ok ⟨readLE 8 d 0, readLE 8 d 8⟩) := by
  constructor
  · intro h
    simp [PageHeader.tryFrom, BranchElementHeader.tryFrom, LeafElementHeader.tryFrom,
      BucketHeader.tryFrom, h]
  · intro h
    have h2 : ¬ d.length < 16 := by omega
    simp [PageHeader.tryFrom, BranchElementHeader.tryFrom, LeafElementHeader.tryFrom,
      BucketHeader.tryFrom, h2, PageHeader.decode, BranchElementHeader.decode,
      LeafElementHeader.decode, BucketHeader.decode]

/-- Witness for C7: a 15-byte input fails with `TooSmallData 16 15` in all
four decoders, and a 16-byte all-zero input decodes in all four. -/
theorem c7_header_decoders_witness :
    (PageHeader.tryFrom (List.replicate 15 0) = .error (.TooSmallData 16 15) ∧
     BranchElementHeader.tryFrom (List.replicate 15 0) = .error (.TooSmallData 16 15) ∧
     LeafElementHeader.tryFrom (List.replicate 15 0) = .error (.TooSmallData 16 15) ∧
     BucketHeader.tryFrom (List.replicate 15 0) = .error (.TooSmallData 16 15)) ∧
    (PageHeader.tryFrom (List.replicate 16 0) = .ok ⟨0, 0, 0, 0⟩ ∧
     BranchElementHeader.tryFrom (List.replicate 16 0) = .ok ⟨0, 0, 0⟩ ∧
     LeafElementHeader.tryFrom (List.replicate 16 0) = .ok ⟨0, 0, 0, 0⟩ ∧
     BucketHeader.tryFrom (List.replicate 16 0) = .ok ⟨0, 0⟩) :=
  ⟨(c7_header_decoders (List.replicate 15 0)).1 (by decide),
   (c7_header_decoders (List.replicate 16 0)).2 (by decide)⟩

/-- C5: with both metas decoded, `get_meta` returns meta0 with page id 0
exactly when `meta0.txid > meta1.txid`, and meta1 with page id 1 otherwise;
in particular a txid tie goes to page 1. -/
theorem c5_get_meta (a b : Meta) :
    getMeta (some a) (some b) = .ok (if b.txid < a.txid then (a, 0) else (b, 1)) ∧
    (a.txid = b.txid → getMeta (some a) (some b) = .ok (b, 1)) := by
  constructor
  · by_cases h : b.txid < a.txid <;> simp [getMeta, h]
  · intro h
    have h2 : ¬ b.txid < a.txid := by omega
    simp [getMeta, h2]

/-- Witness for C5: two metas with the same txid 7; page 1 wins. -/
theorem c5_get_meta_witness : getMeta (some mtxA) (some mtxB) = .ok (mtxB, 1) :=
  (c5_get_meta mtxA mtxB).2 rfl

/-- C3 counterexample: with page size 512, the iterator emits a `Free` page
info with `capacity = 4096`, not the page size. -/
theorem c3_free_capacity_counterexample :
    pageIterNext [] 512 [⟨none, 5, .Free⟩] =
      .ok (some (.ok ⟨5, .Free, 0, 4096, 0, none⟩, [])) ∧
    (4096 : Nat) ≠ 512 := by decide

/-- C3 amended: for every file and page size, a `Free` stack entry is emitted
as `{id = page_id, typ = Free, overflow = 0, capacity = 4096 (a hard-coded
constant, not the page size), used = 0, parent = None}`, without touching the
file. -/
theorem c3_free_page_info (file : Bytes) (ps : Nat) (item : PageIterItem)
    (rest : List PageIterItem) (h : item.typ = PageType.Free) :
    pageIterNext file ps (item :: rest) =
      .ok (some (.ok ⟨item.page_id, .Free, 0, 4096, 0, none⟩, rest)) := by
  simp [pageIterNext, h]

/-- Witness for C3: a concrete `Free` item on a nonempty file. -/
theorem c3_free_page_info_witness :
    pageIterNext [1, 2, 3] 4096 [⟨some 9, 7, .Free⟩] =
      .ok (some (.ok ⟨7, .Free, 0, 4096, 0, none⟩, [])) :=
  c3_free_page_info [1, 2, 3] 4096 ⟨some 9, 7, .Free⟩ [] rfl

/-- C1: `free_pages` tests the count field against `0xFF`, not `0xFFFF`: on a
freelist page with `count = 0xFF` (which the claim and `calculate_used` place
on the direct path) it takes the length-prefix path, reading the u64 at
offset 16 as the length (2 here) and returning the 2 ids at offsets 24 and
32 instead of 255 ids from offset 16. -/
theorem c1_free_pages_ff_bug :
    FreelistPage.new ffData 40 = .ok (.ok ffPage) ∧
    ffPage.header.count = 0xFF ∧ (0xFF : Nat) < 0xFFFF ∧
    FreelistPage.freePages ffPage = .ok (.ok [10, 11]) ∧
    ([10, 11] : List Nat).length ≠ 0xFF := by decide

set_option maxRecDepth 10000 in
/-- C2: on a file whose page 0 is a meta page with stored checksum 0 and whose
page 1 is fully valid, `initialize` propagates page 0's
`InvalidPageChecksum` error instead of falling back to meta 1, so `DB::open`
fails rather than reporting `meta_pgid = 1`. -/
theorem c2_open_fails_on_corrupt_meta0 :
    Meta.tryFrom page1C2 =
      .ok ⟨MAGIC_NUMBER, DATAFILE_VERSION, 128, 3, 0, 2, 4, 6,
        fnv1a64 (metaBody 128 3 2 4 6)⟩ ∧
    Meta.tryFrom page0C2 =
      .error (.InvalidPageChecksum (fnv1a64 (metaBody 128 3 2 4 5)) 0 0) ∧
    initDB fileC2 128 =
      .ok (.error (.BoltTypes (.InvalidPageChecksum (fnv1a64 (metaBody 128 3 2 4 5)) 0 0))) := by
  decide

/-- C4 counterexample: a 16-byte non-meta/non-freelist page with flags 0x03
(Branch and Leaf bits both set) is classified as a branch page, not rejected
with the unknown-flags error. -/
theorem c4_flags03_is_branch :
    Page.new flagBoth16 16 =
      .ok (.ok (.BranchPage ⟨flagBoth16, ⟨1, 3, 0, 0⟩, 16, 16⟩)) ∧
    Page.new flagBoth16 16 ≠ .ok (.error (.InvalidData "unknown page flags")) := by
  decide

/-- C10 counterexample: a freelist page with the 0xFFFF length-prefix
sentinel and a buffer of 16 bytes (page size 16, overflow 0, so the buffer
length matches `page_size * (overflow + 1)`) makes `Page::new` panic in
`read_value`'s assert instead of returning an `Err`. -/
theorem c10_sentinel_short_buffer_panics :
    Page.new flPanic16 16 = .panic ∧
    flPanic16.length = 16 * ((PageHeader.decode flPanic16).overflow + 1) ∧
    (16 : Nat) ≠ 0 ∧ flPanic16.length < 24 := by decide

/-- C6: on a buffer of at least 80 bytes whose magic and version fields are
correct, `Meta::try_from` succeeds exactly when the stored checksum (the
little-endian u64 at offset 72) equals the FNV-1a-64 hash of bytes
`[16..72]`, and on a mismatch it fails with `InvalidPageChecksum` carrying
the computed hash as `expect` and the stored field as `got`. -/
theorem c6_meta_checksum (d : Bytes) (hlen : 80 ≤ d.length)
    (hmagic : readLE 4 d 16 = MAGIC_NUMBER) (hver : readLE 4 d 20 = DATAFILE_VERSION) :
    (isOkE (Meta.tryFrom d) = true ↔ readLE 8 d 72 = fnv1a64 ((d.drop 16).take 56)) ∧
    (readLE 8 d 72 ≠ fnv1a64 ((d.drop 16).take 56) →
      Meta.tryFrom d = .error (.InvalidPageChecksum (fnv1a64 ((d.drop 16).take 56))
        (readLE 8 d 72) (readLE 8 d 0))) := by
  have h1 : ¬ d.length < 80 := by omega
  have h2 : ¬ d.length < 16 := by omega
  constructor
  · by_cases hc : readLE 8 d 72 = fnv1a64 ((d.drop 16).take 56) <;>
      simp [Meta.tryFrom, h1, h2, PageHeader.tryFrom, Meta.decode, hmagic, hver, hc,
        isOkE, PageHeader.decode]
  · intro hc
    simp [Meta.tryFrom, h1, h2, PageHeader.tryFrom, Meta.decode, hmagic, hver, hc,
      PageHeader.decode]

set_option maxRecDepth 10000 in
/-- Witness for C6: the valid meta page `page1C2` satisfies the equivalence
and the mismatch implication. -/
theorem c6_meta_checksum_witness :
    (isOkE (Meta.tryFrom page1C2) = true ↔
      readLE 8 page1C2 72 = fnv1a64 ((page1C2.drop 16).take 56)) ∧
    (readLE 8 page1C2 72 ≠ fnv1a64 ((page1C2.drop 16).take 56) →
      Meta.tryFrom page1C2 = .error (.InvalidPageChecksum
        (fnv1a64 ((page1C2.drop 16).take 56)) (readLE 8 page1C2 72)
        (readLE 8 page1C2 0))) :=
  c6_meta_checksum page1C2 (by decide) (by decide) (by decide)

/-- C9: whatever the active meta is, if the inner lookup ends in an error then
the public `get_key_value` returns `None`, and a `Some` result can only come
from an error-free inner lookup returning that very key/value. -/
theorem c9_lookup_error_to_none (file : Bytes) (ps : Nat) (m0 m1 : Option Meta)
    (fuel : Nat) (buckets : List Bytes) (key : Bytes) (meta : Meta) (pg : Nat)
    (hmeta : getMeta m0 m1 = .ok (meta, pg)) :
    (∀ e, getKeyValueInner file ps fuel buckets key meta.root_pgid = .ok (.error e) →
      getKeyValue file ps m0 m1 fuel buckets key = .ok none) ∧
    (∀ kv, getKeyValue file ps m0 m1 fuel buckets key = .ok (some kv) →
      getKeyValueInner file ps fuel buckets key meta.root_pgid = .ok (.ok (some kv))) := by
  constructor
  · intro e he
    simp [getKeyValue, hmeta, he]
  · intro kv hkv
    cases hinner : getKeyValueInner file ps fuel buckets key meta.root_pgid with
    | panic =>
      have hv : getKeyValue file ps m0 m1 fuel buckets key = .panic := by
        simp [getKeyValue, hmeta, hinner]
      rw [hv] at hkv
      cases hkv
    | ok r =>
      cases r with
      | error e =>
        have hv : getKeyValue file ps m0 m1 fuel buckets key = .ok none := by
          simp [getKeyValue, hmeta, hinner]
        rw [hv] at hkv
        simp at hkv
      | ok v =>
        have hv : getKeyValue file ps m0 m1 fuel buckets key = .ok v := by
          simp [getKeyValue, hmeta, hinner]
        rw [hv] at hkv
        simp only [PanicOr.ok.injEq] at hkv
        rw [hkv]

/-- Witness for C9: on the all-zero file the first page decode fails with the
unknown-flags error, and the lookup returns `None`. -/
theorem c9_lookup_error_to_none_witness :
    (∀ e, getKeyValueInner fileZ 16 1 [] [5] mRoot0.root_pgid = .ok (.error e) →
      getKeyValue fileZ 16 (some mRoot0) none 1 [] [5] = .ok none) ∧
    (∀ kv, getKeyValue fileZ 16 (some mRoot0) none 1 [] [5] = .ok (some kv) →
      getKeyValueInner fileZ 16 1 [] [5] mRoot0.root_pgid = .ok (.ok (some kv))) :=
  c9_lookup_error_to_none fileZ 16 (some mRoot0) none 1 [] [5] mRoot0 0 rfl

/-- `PageHeader::try_from` can only fail with `TooSmallData 16 len`. -/
theorem pageHeaderTryFrom_err (d : Bytes) (e : Error)
    (h : PageHeader.tryFrom d = .error e) : e = .TooSmallData 16 d.length := by
  unfold PageHeader.tryFrom at h
  split at h
  · exact (Except.error.inj h).symm
  · cases h

/-- `BranchElementHeader::try_from` can only fail with `TooSmallData 16 len`. -/
theorem branchHdrTryFrom_err (d : Bytes) (e : Error)
    (h : BranchElementHeader.tryFrom d = .error e) : e = .TooSmallData 16 d.length := by
  unfold BranchElementHeader.tryFrom at h
  split at h
  · exact (Except.error.inj h).symm
  · cases h

/-- `LeafElementHeader::try_from` can only fail with `TooSmallData 16 len`. -/
theorem leafHdrTryFrom_err (d : Bytes) (e : Error)
    (h : LeafElementHeader.tryFrom d = .error e) : e = .TooSmallData 16 d.length := by
  unfold LeafElementHeader.tryFrom at h
  split at h
  · exact (Except.error.inj h).symm
  · cases h

/-- `MetaPage::new` never produces the unknown-flags error. -/
theorem metaPageNew_not_unknown (d : Bytes) (ps : Nat) :
    MetaPage.new d ps ≠ .error (.InvalidData "unknown page flags") := by
  intro hc
  unfold MetaPage.new at hc
  split at hc
  · rename_i e heq
    rw [pageHeaderTryFrom_err d e heq] at hc
    cases hc
  · split at hc
    · exact absurd (Except.error.inj hc) (by decide)
    · cases hc

/-- `BranchPage::calculate_used` never produces the unknown-flags error. -/
theorem branchCalcUsed_not_unknown (h : PageHeader) (d : Bytes) :
    BranchPage.calculateUsed h d ≠ .error (.InvalidData "unknown page flags") := by
  intro hc
  simp only [BranchPage.calculateUsed] at hc
  split at hc
  · cases hc
  · split at hc
    · exact absurd (Except.error.inj hc) (by decide)
    · split at hc
      · rename_i e heq
        rw [branchHdrTryFrom_err _ e heq] at hc
        cases hc
      · cases hc

/-- `LeafPage::calculate_used` never produces the unknown-flags error. -/
theorem leafCalcUsed_not_unknown (h : PageHeader) (d : Bytes) :
    LeafPage.calculateUsed h d ≠ .error (.InvalidData "unknown page flags") := by
  intro hc
  simp only [LeafPage.calculateUsed] at hc
  split at hc
  · cases hc
  · split at hc
    · exact absurd (Except.error.inj hc) (by decide)
    · split at hc
      · rename_i e heq
        rw [leafHdrTryFrom_err _ e heq] at hc
        cases hc
      · cases hc

/-- `BranchPage::new` never produces the unknown-flags error. -/
theorem branchPageNew_not_unknown (d : Bytes) (ps : Nat) :
    BranchPage.new d ps ≠ .error (.InvalidData "unknown page flags") := by
  intro hc
  unfold BranchPage.new at hc
  split at hc
  · rename_i e heq
    rw [pageHeaderTryFrom_err d e heq] at hc
    cases hc
  · split at hc
    · exact absurd (Except.error.inj hc) (by decide)
    · split at hc
      · rename_i e heq
        have he : e = Error.InvalidData "unknown page flags" := Except.error.inj hc
        exact branchCalcUsed_not_unknown _ d (he ▸ heq)
      · cases hc

/-- `LeafPage::new` never produces the unknown-flags error. -/
theorem leafPageNew_not_unknown (d : Bytes) (ps : Nat) :
    LeafPage.new d ps ≠ .error (.InvalidData "unknown page flags") := by
  intro hc
  unfold LeafPage.new at hc
  split at hc
  · rename_i e heq
    rw [pageHeaderTryFrom_err d e heq] at hc
    cases hc
  · split at hc
    · exact absurd (Except.error.inj hc) (by decide)
    · split at hc
      · rename_i e heq
        have he : e = Error.InvalidData "unknown page flags" := Except.error.inj hc
        exact leafCalcUsed_not_unknown _ d (he ▸ heq)
      · cases hc

/-- `FreelistPage::new` never produces the unknown-flags error. -/
theorem freelistPageNew_not_unknown (d : Bytes) (ps : Nat) :
    FreelistPage.new d ps ≠ .ok (.error (.InvalidData "unknown page flags")) := by
  intro hc
  unfold FreelistPage.new at hc
  split at hc
  · rename_i e heq
    rw [pageHeaderTryFrom_err d e heq] at hc
    exact absurd ((PanicOr.ok.inj hc)) (by simp)
  · split at hc
    · exact absurd (Except.error.inj (PanicOr.ok.inj hc)) (by decide)
    · split at hc
      · cases hc
      · cases hc

/-- With a decodable header, `Page::new` on a meta-flagged page is the
`MetaPage::new` result. -/
theorem pageNew_meta_case (d : Bytes) (ps : Nat) (hps : ps ≠ 0)
    (hlen : ¬ d.length < 16) (hm : (PageHeader.decode d).isMetaPage = true) :
    Page.new d ps =
      (match MetaPage.new d ps with
       | .error e => .ok (.error e)
       | .ok p => .ok (.ok (.MetaPage p))) := by
  simp [Page.new, PageHeader.tryFrom, hps, hlen, hm]

/-- With a decodable header, `Page::new` on a freelist-flagged (non-meta)
page is the `FreelistPage::new` result. -/
theorem pageNew_freelist_case (d : Bytes) (ps : Nat) (hps : ps ≠ 0)
    (hlen : ¬ d.length < 16) (hm : (PageHeader.decode d).isMetaPage = false)
    (hfl : (PageHeader.decode d).isFreelistPage = true) :
    Page.new d ps =
      (match FreelistPage.new d ps with
       | .panic => .panic
       | .ok (.error e) => .ok (.error e)
       | .ok (.ok p) => .ok (.ok (.FreelistPage p))) := by
  simp [Page.new, PageHeader.tryFrom, hps, hlen, hm, hfl]

/-- With a decodable header, `Page::new` on a branch-flagged (non-meta,
non-freelist) page is the `BranchPage::new` result. -/
theorem pageNew_branch_case (d : Bytes) (ps : Nat) (hps : ps ≠ 0)
    (hlen : ¬ d.length < 16) (hm : (PageHeader.decode d).isMetaPage = false)
    (hfl : (PageHeader.decode d).isFreelistPage = false)
    (hbr : (PageHeader.decode d).isBranchPage = true) :
    Page.new d ps =
      (match BranchPage.new d ps with
       | .error e => .ok (.error e)
       | .ok p => .ok (.ok (.BranchPage p))) := by
  simp [Page.new, PageHeader.tryFrom, hps, hlen, hm, hfl, hbr]

/-- With a decodable header, `Page::new` on a leaf-flagged (only) page is the
`LeafPage::new` result. -/
theorem pageNew_leaf_case (d : Bytes) (ps : Nat) (hps : ps ≠ 0)
    (hlen : ¬ d.length < 16) (hm : (PageHeader.decode d).isMetaPage = false)
    (hfl : (PageHeader.decode d).isFreelistPage = false)
    (hbr : (PageHeader.decode d).isBranchPage = false)
    (hlf : (PageHeader.decode d).isLeafPage = true) :
    Page.new d ps =
      (match LeafPage.new d ps with
       | .error e => .ok (.error e)
       | .ok p => .ok (.ok (.LeafPage p))) := by
  simp [Page.new, PageHeader.tryFrom, hps, hlen, hm, hfl, hbr, hlf]

/-- With a decodable header carrying none of the four flag bits, `Page::new`
is the unknown-flags error. -/
theorem pageNew_unknown_case (d : Bytes) (ps : Nat) (hps : ps ≠ 0)
    (hlen : ¬ d.length < 16) (hm : (PageHeader.decode d).isMetaPage = false)
    (hfl : (PageHeader.decode d).isFreelistPage = false)
    (hbr : (PageHeader.decode d).isBranchPage = false)
    (hlf : (PageHeader.decode d).isLeafPage = false) :
    Page.new d ps = .ok (.error (.InvalidData "unknown page flags")) := by
  simp [Page.new, PageHeader.tryFrom, hps, hlen, hm, hfl, hbr, hlf]

/-- The truncated flags word carries none of the four defined bits exactly
when it is zero. -/
theorem flagsZero_iff (x : Nat) :
    (flagContains (x &&& pageFlagMask) 0x04 = false ∧
     flagContains (x &&& pageFlagMask) 0x10 = false ∧
     flagContains (x &&& pageFlagMask) 0x01 = false ∧
     flagContains (x &&& pageFlagMask) 0x02 = false) ↔ x &&& pageFlagMask = 0 := by
  have hb23 : x &&& pageFlagMask ≤ 23 := Nat.and_le_right
  have h8 : x &&& pageFlagMask &&& 8 = 0 := by
    rw [Nat.and_assoc]
    have hm8 : pageFlagMask &&& 8 = 0 := by decide
    rw [hm8, Nat.and_zero]
  generalize hg : x &&& pageFlagMask = f at hb23 h8 ⊢
  interval_cases f <;> revert h8 <;> decide

/-- C4 amended: with a nonzero page size and a decodable header, `Page::new`
returns `InvalidData("unknown page flags")` exactly when the truncated flags
word carries none of the four defined bits (undefined bits are dropped by
`from_bits_truncate` before the dispatch); and a non-meta/non-freelist page
whose flags contain the Branch bit — the Leaf bit possibly set as well, as in
0x03 — is dispatched to `BranchPage::new`, not rejected. -/
theorem c4_unknown_flags_iff (d : Bytes) (ps : Nat) (hps : ps ≠ 0)
    (hlen : 16 ≤ d.length) :
    (Page.new d ps = .ok (.error (.InvalidData "unknown page flags")) ↔
      readLE 2 d 8 &&& pageFlagMask = 0) ∧
    ((PageHeader.decode d).isMetaPage = false →
     (PageHeader.decode d).isFreelistPage = false →
     (PageHeader.decode d).isBranchPage = true →
      Page.new d ps =
        (match BranchPage.new d ps with
         | .error e => .ok (.error e)
         | .ok p => .ok (.ok (.BranchPage p)))) := by
  have hnl : ¬ d.length < 16 := by omega
  refine ⟨?_, fun hm hfl hbr => pageNew_branch_case d ps hps hnl hm hfl hbr⟩
  cases hm : (PageHeader.decode d).isMetaPage with
  | true =>
    rw [pageNew_meta_case d ps hps hnl hm]
    constructor
    · intro hc
      exfalso
      cases hme : MetaPage.new d ps with
      | error e =>
        rw [hme] at hc
        have he : e = Error.InvalidData "unknown page flags" :=
          Except.error.inj (PanicOr.ok.inj hc)
        exact metaPageNew_not_unknown d ps (by rw [hme, he])
      | ok p =>
        rw [hme] at hc
        exact absurd (PanicOr.ok.inj hc) (by simp)
    · intro h0
      exfalso
      have hall := (flagsZero_iff (readLE 2 d 8)).mpr h0
      exact absurd (hm.symm.trans hall.1) (by decide)
  | false =>
    cases hfl : (PageHeader.decode d).isFreelistPage with
    | true =>
      rw [pageNew_freelist_case d ps hps hnl hm hfl]
      constructor
      · intro hc
        exfalso
        cases hfe : FreelistPage.new d ps with
        | panic => rw [hfe] at hc; cases hc
        | ok r =>
          cases r with
          | error e =>
            rw [hfe] at hc
            have he : e = Error.InvalidData "unknown page flags" :=
              Except.error.inj (PanicOr.ok.inj hc)
            exact freelistPageNew_not_unknown d ps (by rw [hfe, he])
          | ok p =>
            rw [hfe] at hc
            exact absurd (PanicOr.ok.inj hc) (by simp)
      · intro h0
        exfalso
        have hall := (flagsZero_iff (readLE 2 d 8)).mpr h0
        exact absurd (hfl.symm.trans hall.2.1) (by decide)
    | false =>
      cases hbr : (PageHeader.decode d).isBranchPage with
      | true =>
        rw [pageNew_branch_case d ps hps hnl hm hfl hbr]
        constructor
        · intro hc
          exfalso
          cases hbe : BranchPage.new d ps with
          | error e =>
            rw [hbe] at hc
            have he : e = Error.InvalidData "unknown page flags" :=
              Except.error.inj (PanicOr.ok.inj hc)
            exact branchPageNew_not_unknown d ps (by rw [hbe, he])
          | ok p =>
            rw [hbe] at hc
            exact absurd (PanicOr.ok.inj hc) (by simp)
        · intro h0
          exfalso
          have hall := (flagsZero_iff (readLE 2 d 8)).mpr h0
          exact absurd (hbr.symm.trans hall.2.2.1) (by decide)
      | false =>
        cases hlf : (PageHeader.decode d).isLeafPage with
        | true =>
          rw [pageNew_leaf_case d ps hps hnl hm hfl hbr hlf]
          constructor
          · intro hc
            exfalso
            cases hle : LeafPage.new d ps with
            | error e =>
              rw [hle] at hc
              have he : e = Error.InvalidData "unknown page flags" :=
                Except.error.inj (PanicOr.ok.inj hc)
              exact leafPageNew_not_unknown d ps (by rw [hle, he])
            | ok p =>
              rw [hle] at hc
              exact absurd (PanicOr.ok.inj hc) (by simp)
          · intro h0
            exfalso
            have hall := (flagsZero_iff (readLE 2 d 8)).mpr h0
            exact absurd (hlf.symm.trans hall.2.2.2) (by decide)
        | false =>
          rw [pageNew_unknown_case d ps hps hnl hm hfl hbr hlf]
          exact iff_of_true rfl ((flagsZero_iff (readLE 2 d 8)).mp ⟨hm, hfl, hbr, hlf⟩)

/-- Witness for C4 amended: the 0x03-flagged page of the counterexample. -/
theorem c4_unknown_flags_iff_witness :
    (Page.new flagBoth16 16 = .ok (.error (.InvalidData "unknown page flags")) ↔
      readLE 2 flagBoth16 8 &&& pageFlagMask = 0) ∧
    ((PageHeader.decode flagBoth16).isMetaPage = false →
     (PageHeader.decode flagBoth16).isFreelistPage = false →
     (PageHeader.decode flagBoth16).isBranchPage = true →
      Page.new flagBoth16 16 =
        (match BranchPage.new flagBoth16 16 with
         | .error e => .ok (.error e)
         | .ok p => .ok (.ok (.BranchPage p)))) :=
  c4_unknown_flags_iff flagBoth16 16 (by decide) (by decide)

/-- `FreelistPage::new` panics exactly when the size check passes, the count
is the 0xFFFF sentinel and the buffer is shorter than 24 bytes. -/
theorem freelistNew_panic_iff (d : Bytes) (ps : Nat) (hlen : ¬ d.length < 16) :
    FreelistPage.new d ps = .panic ↔
      (ps * ((PageHeader.decode d).overflow + 1) = d.length ∧
       (PageHeader.decode d).count = 0xFFFF ∧ d.length < 24) := by
  have hd : PageHeader.tryFrom d = .ok (PageHeader.decode d) := by
    simp [PageHeader.tryFrom, hlen]
  unfold FreelistPage.new
  rw [hd]
  by_cases hsz : ps * ((PageHeader.decode d).overflow + 1) = d.length
  · by_cases hcnt : (PageHeader.decode d).count = 0xFFFF
    · by_cases h24 : d.length < 24
      · have hrv : readValue? 8 d 16 = none := by
          simp [readValue?]
          omega
        simp [hsz, FreelistPage.calculateUsed, hcnt, hrv, h24]
      · have hrv : readValue? 8 d 16 = some (readLE 8 d 16) := by
          simp [readValue?]
          omega
        simp [hsz, FreelistPage.calculateUsed, hcnt, hrv, h24]
    · simp [hsz, FreelistPage.calculateUsed, hcnt]
  · simp [hsz]

/-- C10 amended: `Page::new` never panics except on a freelist-flagged page
that passes the size/overflow check, whose count is the 0xFFFF length-prefix
sentinel, and whose buffer is shorter than the 24 bytes needed to read the
true count — where `read_value`'s assert fires.  All other malformed inputs
(headers or elements past the buffer) are returned as `Err` values. -/
theorem c10_page_new_panic_iff (d : Bytes) (ps : Nat) :
    Page.new d ps = .panic ↔
      (ps ≠ 0 ∧ 16 ≤ d.length ∧
       (PageHeader.decode d).isMetaPage = false ∧
       (PageHeader.decode d).isFreelistPage = true ∧
       ps * ((PageHeader.decode d).overflow + 1) = d.length ∧
       (PageHeader.decode d).count = 0xFFFF ∧ d.length < 24) := by
  by_cases hps : ps = 0
  · simp [Page.new, hps]
  by_cases hlen : d.length < 16
  · have htf : PageHeader.tryFrom d = .error (.TooSmallData 16 d.length) := by
      simp [PageHeader.tryFrom, hlen]
    have hl : Page.new d ps = .ok (.error (.TooSmallData 16 d.length)) := by
      simp [Page.new, hps, htf]
    rw [hl]
    constructor
    · intro hc; cases hc
    · rintro ⟨-, h16, -⟩; omega
  cases hm : (PageHeader.decode d).isMetaPage with
  | true =>
    rw [pageNew_meta_case d ps hps hlen hm]
    constructor
    · intro hc
      exfalso
      cases hme : MetaPage.new d ps with
      | error e => rw [hme] at hc; cases hc
      | ok p => rw [hme] at hc; cases hc
    · rintro ⟨-, -, hm', -⟩
      exact absurd hm' (by decide)
  | false =>
    cases hfl : (PageHeader.decode d).isFreelistPage with
    | true =>
      rw [pageNew_freelist_case d ps hps hlen hm hfl]
      have hstep : (match FreelistPage.new d ps with
          | .panic => (.panic : PanicOr (Except Error BoltPage))
          | .ok (.error e) => .ok (.error e)
          | .ok (.ok p) => .ok (.ok (.FreelistPage p))) = .panic ↔
          FreelistPage.new d ps = .panic := by
        cases hfe : FreelistPage.new d ps with
        | panic => simp
        | ok r => cases r <;> simp
      rw [hstep, freelistNew_panic_iff d ps hlen]
      constructor
      · rintro ⟨h1, h2, h3⟩
        exact ⟨hps, by omega, rfl, rfl, h1, h2, h3⟩
      · rintro ⟨-, -, -, -, h1, h2, h3⟩
        exact ⟨h1, h2, h3⟩
    | false =>
      cases hbr : (PageHeader.decode d).isBranchPage with
      | true =>
        rw [pageNew_branch_case d ps hps hlen hm hfl hbr]
        constructor
        · intro hc
          exfalso
          cases hbe : BranchPage.new d ps with
          | error e => rw [hbe] at hc; cases hc
          | ok p => rw [hbe] at hc; cases hc
        · rintro ⟨-, -, -, hfl', -⟩
          exact absurd hfl' (by decide)
      | false =>
        cases hlf : (PageHeader.decode d).isLeafPage with
        | true =>
          rw [pageNew_leaf_case d ps hps hlen hm hfl hbr hlf]
          constructor
          · intro hc
            exfalso
            cases hle : LeafPage.new d ps with
            | error e => rw [hle] at hc; cases hc
            | ok p => rw [hle] at hc; cases hc
          · rintro ⟨-, -, -, hfl', -⟩
            exact absurd hfl' (by decide)
        | false =>
          rw [pageNew_unknown_case d ps hps hlen hm hfl hbr hlf]
          constructor
          · intro hc; cases hc
          · rintro ⟨-, -, -, hfl', -⟩
            exact absurd hfl' (by decide)

/-! Lemmas about the byte-string comparison and Rust's binary search, leading
to the branch-descent theorem. -/

theorem natCmp_lt_iff {a b : Nat} : natCmp a b = .lt ↔ a < b := by
  unfold natCmp
  split_ifs with h1 h2 <;> simp_all

theorem natCmp_eq_iff {a b : Nat} : natCmp a b = .eq ↔ a = b := by
  unfold natCmp
  split_ifs with h1 h2 <;> simp_all
  omega

theorem natCmp_gt_iff {a b : Nat} : natCmp a b = .gt ↔ b < a := by
  unfold natCmp
  split_ifs with h1 h2 <;> simp_all <;> omega

theorem beq_lt_iff (o : Ordering) : (o == Ordering.lt) = true ↔ o = .lt := by
  cases o <;> decide

theorem byteCmp_refl (a : Bytes) : byteCmp a a = .eq := by
  induction a with
  | nil => rfl
  | cons a as ih =>
    unfold byteCmp
    rw [natCmp_eq_iff.mpr rfl]
    exact ih

theorem byteCmp_eq_iff (a : Bytes) : ∀ b, byteCmp a b = .eq ↔ a = b := by
  induction a with
  | nil =>
    intro b
    cases b <;> simp [byteCmp]
  | cons a as ih =>
    intro b
    cases b with
    | nil => simp [byteCmp]
    | cons b bs =>
      unfold byteCmp
      cases hab : natCmp a b with
      | lt =>
        have : a ≠ b := by
          have := natCmp_lt_iff.mp hab
          omega
        simp [this]
      | gt =>
        have : a ≠ b := by
          have := natCmp_gt_iff.mp hab
          omega
        simp [this]
      | eq =>
        have hab' : a = b := natCmp_eq_iff.mp hab
        simp [hab', ih bs]

theorem byteCmp_gt_iff (a : Bytes) : ∀ b, byteCmp a b = .gt ↔ byteCmp b a = .lt := by
  induction a with
  | nil =>
    intro b
    cases b <;> simp [byteCmp]
  | cons a as ih =>
    intro b
    cases b with
    | nil => simp [byteCmp]
    | cons b bs =>
      unfold byteCmp
      cases hab : natCmp a b with
      | lt =>
        have hba : natCmp b a = .gt := natCmp_gt_iff.mpr (natCmp_lt_iff.mp hab)
        simp [hba]
      | gt =>
        have hba : natCmp b a = .lt := natCmp_lt_iff.mpr (natCmp_gt_iff.mp hab)
        simp [hba]
      | eq =>
        have hba : natCmp b a = .eq := natCmp_eq_iff.mpr (natCmp_eq_iff.mp hab).symm
        simp [hba, ih bs]

theorem byteLt_irrefl (a : Bytes) : ¬ byteLt a a := by
  simp [byteLt, byteCmp_refl]

theorem byteLt_trans (a : Bytes) : ∀ b c, byteLt a b → byteLt b c → byteLt a c := by
  induction a with
  | nil =>
    intro b c h1 h2
    cases b with
    | nil => exact absurd h1 (by simp [byteLt, byteCmp])
    | cons b bs =>
      cases c with
      | nil => exact absurd h2 (by simp [byteLt, byteCmp])
      | cons c cs => simp [byteLt, byteCmp]
  | cons a as ih =>
    intro b c h1 h2
    cases b with
    | nil => exact absurd h1 (by simp [byteLt, byteCmp])
    | cons b bs =>
      cases c with
      | nil => exact absurd h2 (by simp [byteLt, byteCmp])
      | cons c cs =>
        unfold byteLt byteCmp at h1 h2 ⊢
        cases hab : natCmp a b with
        | gt => rw [hab] at h1; cases h1
        | lt =>
          rw [hab] at h1
          have hab' := natCmp_lt_iff.mp hab
          cases hbc : natCmp b c with
          | gt => rw [hbc] at h2; cases h2
          | lt =>
            have hbc' := natCmp_lt_iff.mp hbc
            rw [natCmp_lt_iff.mpr (by omega : a < c)]
          | eq =>
            have hbc' := natCmp_eq_iff.mp hbc
            rw [natCmp_lt_iff.mpr (by omega : a < c)]
        | eq =>
          rw [hab] at h1
          have hab' := natCmp_eq_iff.mp hab
          cases hbc : natCmp b c with
          | gt => rw [hbc] at h2; cases h2
          | lt =>
            have hbc' := natCmp_lt_iff.mp hbc
            rw [natCmp_lt_iff.mpr (by omega : a < c)]
          | eq =>
            have hbc' := natCmp_eq_iff.mp hbc
            rw [natCmp_eq_iff.mpr (by omega : a = c)]
            rw [hbc] at h2
            exact ih bs cs h1 h2

/-- A `strictSorted` key list is pairwise strictly increasing. -/
theorem strictSorted_pairwise : ∀ ks : List Bytes, strictSorted ks = true →
    ks.Pairwise byteLt := by
  intro ks
  induction ks with
  | nil => intro _; exact List.Pairwise.nil
  | cons a rest ih =>
    intro h
    cases rest with
    | nil => simp
    | cons b t =>
      unfold strictSorted at h
      rw [Bool.and_eq_true] at h
      obtain ⟨hab, hrest⟩ := h
      have hab' : byteLt a b := (beq_lt_iff (byteCmp a b)).mp hab
      have hp := ih hrest
      refine List.Pairwise.cons ?_ hp
      intro x hx
      rcases List.mem_cons.mp hx with rfl | hx'
      · exact hab'
      · exact byteLt_trans a b x hab' ((List.pairwise_cons.mp hp).1 x hx')

/-- Pairwise sortedness phrased over `getD`. -/
theorem pairwise_getD_lt (ks : List Bytes) (hp : ks.Pairwise byteLt)
    (i j : Nat) (hij : i < j) (hj : j < ks.length) :
    byteLt (ks.getD i []) (ks.getD j []) := by
  have hi : i < ks.length := lt_trans hij hj
  have h1 : ks.getD i [] = ks.get ⟨i, hi⟩ := by
    rw [List.getD, List.get?_eq_get hi]
    rfl
  have h2 : ks.getD j [] = ks.get ⟨j, hj⟩ := by
    rw [List.getD, List.get?_eq_get hj]
    rfl
  rw [h1, h2]
  exact List.pairwise_iff_get.mp hp ⟨i, hi⟩ ⟨j, hj⟩ hij

/-- Full functional specification of the binary-search loop on a sorted key
list: a `found` result is an in-range exact match; a `notFound` result is the
boundary below which every key is smaller than the target and at or above
which every key is larger. -/
theorem bsLoop_spec (ks : List Bytes) (k : Bytes) (hp : ks.Pairwise byteLt) :
    ∀ n lo hi, hi - lo = n → lo ≤ hi → hi ≤ ks.length →
    (∀ j, j < lo → byteLt (ks.getD j []) k) →
    (∀ j, hi ≤ j → j < ks.length → byteLt k (ks.getD j [])) →
    (match bsLoop ks k lo hi with
     | .found i => lo ≤ i ∧ i < hi ∧ ks.getD i [] = k
     | .notFound i => lo ≤ i ∧ i ≤ hi ∧
         (∀ j, j < i → byteLt (ks.getD j []) k) ∧
         (∀ j, i ≤ j → j < ks.length → byteLt k (ks.getD j []))) := by
  intro n
  induction n using Nat.strong_induction_on with
  | _ n IH =>
    intro lo hi hn hlh hhl hlb hub
    by_cases hlt : lo < hi
    · rw [bsLoop, dif_pos hlt]
      cases hcm : byteCmp (ks.getD (lo + (hi - lo) / 2) []) k with
      | eq =>
        refine ⟨by omega, by omega, (byteCmp_eq_iff _ _).mp hcm⟩
      | lt =>
        have hmid : lo + (hi - lo) / 2 < hi := by omega
        have hlb' : ∀ j, j < lo + (hi - lo) / 2 + 1 → byteLt (ks.getD j []) k := by
          intro j hj
          rcases Nat.lt_or_ge j (lo + (hi - lo) / 2) with h | h
          · exact byteLt_trans _ _ _ (pairwise_getD_lt ks hp j _ h (by omega)) hcm
          · have : j = lo + (hi - lo) / 2 := by omega
            rw [this]
            exact hcm
        have hrec := IH (hi - (lo + (hi - lo) / 2 + 1)) (by omega) (lo + (hi - lo) / 2 + 1) hi
          rfl (by omega) hhl hlb' hub
        cases hres : bsLoop ks k (lo + (hi - lo) / 2 + 1) hi with
        | found i =>
          rw [hres] at hrec
          obtain ⟨h1, h2, h3⟩ := hrec
          exact ⟨by omega, by omega, h3⟩
        | notFound i =>
          rw [hres] at hrec
          obtain ⟨h1, h2, h3, h4⟩ := hrec
          exact ⟨by omega, by omega, h3, h4⟩
      | gt =>
        have hmid : lo + (hi - lo) / 2 < hi := by omega
        have hkm : byteLt k (ks.getD (lo + (hi - lo) / 2) []) := (byteCmp_gt_iff _ _).mp hcm
        have hub' : ∀ j, lo + (hi - lo) / 2 ≤ j → j < ks.length → byteLt k (ks.getD j []) := by
          intro j hj hjl
          rcases Nat.lt_or_ge j (lo + (hi - lo) / 2 + 1) with h | h
          · have : j = lo + (hi - lo) / 2 := by omega
            rw [this]
            exact hkm
          · exact byteLt_trans _ _ _ hkm (pairwise_getD_lt ks hp _ j (by omega) hjl)
        have hrec := IH (lo + (hi - lo) / 2 - lo) (by omega) lo (lo + (hi - lo) / 2)
          rfl (by omega) (by omega) hlb hub'
        cases hres : bsLoop ks k lo (lo + (hi - lo) / 2) with
        | found i =>
          rw [hres] at hrec
          obtain ⟨h1, h2, h3⟩ := hrec
          exact ⟨by omega, by omega, h3⟩
        | notFound i =>
          rw [hres] at hrec
          obtain ⟨h1, h2, h3, h4⟩ := hrec
          exact ⟨by omega, by omega, h3, h4⟩
    · rw [bsLoop, dif_neg hlt]
      exact ⟨le_refl lo, by omega, hlb, fun j hj hjl => hub j (by omega) hjl⟩

/-- Specialization of `bsLoop_spec` to the top-level search. -/
theorem rustBS_spec (ks : List Bytes) (k : Bytes) (hp : ks.Pairwise byteLt) :
    (match rustBinarySearch ks k with
     | .found i => i < ks.length ∧ ks.getD i [] = k
     | .notFound i => i ≤ ks.length ∧
         (∀ j, j < i → byteLt (ks.getD j []) k) ∧
         (∀ j, i ≤ j → j < ks.length → byteLt k (ks.getD j []))) := by
  have h := bsLoop_spec ks k hp ks.length 0 ks.length rfl (Nat.zero_le _) (le_refl _)
    (fun j hj => absurd hj (Nat.not_lt_zero j))
    (fun j h1 h2 => absurd (lt_of_le_of_lt h1 h2) (lt_irrefl _))
  unfold rustBinarySearch
  cases hres : bsLoop ks k 0 ks.length with
  | found i =>
    rw [hres] at h
    exact ⟨h.2.1, h.2.2⟩
  | notFound i =>
    rw [hres] at h
    exact ⟨h.2.1, h.2.2.1, h.2.2.2⟩

/-- On a sorted key list an exact match at `i` is found at exactly `i`. -/
theorem rustBS_hit (ks : List Bytes) (k : Bytes) (i : Nat) (hp : ks.Pairwise byteLt)
    (hi : i < ks.length) (hk : ks.getD i [] = k) :
    rustBinarySearch ks k = .found i := by
  have h := rustBS_spec ks k hp
  cases hres : rustBinarySearch ks k with
  | found i2 =>
    rw [hres] at h
    obtain ⟨hi2, hk2⟩ := h
    rcases lt_trichotomy i i2 with hlt | heq | hgt
    · have := pairwise_getD_lt ks hp i i2 hlt hi2
      rw [hk, hk2] at this
      exact absurd this (byteLt_irrefl k)
    · rw [heq]
    · have := pairwise_getD_lt ks hp i2 i hgt hi
      rw [hk, hk2] at this
      exact absurd this (byteLt_irrefl k)
  | notFound ins =>
    rw [hres] at h
    obtain ⟨hle, hlow, hhigh⟩ := h
    exfalso
    rcases Nat.lt_or_ge i ins with hcase | hcase
    · have := hlow i hcase
      rw [hk] at this
      exact byteLt_irrefl k this
    · have := hhigh i hcase hi
      rw [hk] at this
      exact byteLt_irrefl k this

/-- Counting elements: if a boolean predicate holds on exactly the first
`ins` positions, `countP` is `ins`. -/
theorem countP_split (l : List Bytes) (p : Bytes → Bool) :
    ∀ ins, ins ≤ l.length →
    (∀ j, j < ins → p (l.getD j []) = true) →
    (∀ j, ins ≤ j → j < l.length → p (l.getD j []) = false) →
    l.countP p = ins := by
  induction l with
  | nil =>
    intro ins h _ _
    simp at h ⊢
    omega
  | cons a t ih =>
    intro ins hle hlow hhigh
    cases ins with
    | zero =>
      have ha : p a = false := hhigh 0 (le_refl 0) (by simp)
      have ht : t.countP p = 0 := by
        refine ih 0 (by omega) (fun j hj => absurd hj (by omega)) ?_
        intro j hj hjl
        have := hhigh (j + 1) (by omega) (by simp; omega)
        rwa [List.getD_cons_succ] at this
      simp [List.countP_cons, ha, ht]
    | succ m =>
      have ha : p a = true := by
        have := hlow 0 (by omega)
        rwa [List.getD_cons_zero] at this
      have ht : t.countP p = m := by
        refine ih m (by simpa using hle) ?_ ?_
        · intro j hj
          have := hlow (j + 1) (by omega)
          rwa [List.getD_cons_succ] at this
        · intro j hj hjl
          have := hhigh (j + 1) (by omega) (by simp; omega)
          rwa [List.getD_cons_succ] at this
      simp [List.countP_cons, ha, ht]

/-- On a sorted list with no exact match the search lands on the insertion
point. -/
theorem rustBS_miss (ks : List Bytes) (k : Bytes) (hp : ks.Pairwise byteLt)
    (hmiss : ∀ j, j < ks.length → ks.getD j [] ≠ k) :
    rustBinarySearch ks k = .notFound (insertionPoint ks k) ∧
      insertionPoint ks k ≤ ks.length := by
  have h := rustBS_spec ks k hp
  cases hres : rustBinarySearch ks k with
  | found i =>
    rw [hres] at h
    exact absurd h.2 (hmiss i h.1)
  | notFound ins =>
    rw [hres] at h
    obtain ⟨hle, hlow, hhigh⟩ := h
    have hcount : ks.countP (fun b => byteCmp b k == Ordering.lt) = ins := by
      refine countP_split ks _ ins hle ?_ ?_
      · intro j hj
        exact (beq_lt_iff _).mpr (hlow j hj)
      · intro j hj hjl
        have hkj := hhigh j hj hjl
        have hgt : byteCmp (ks.getD j []) k = .gt := (byteCmp_gt_iff _ _).mpr hkj
        rw [hgt]
        rfl
    unfold insertionPoint
    rw [hcount]
    exact ⟨rfl, hle⟩

/-- `getD` through `map (·.key)`. -/
theorem map_key_getD (elems : List BranchElement) (i : Nat) (hi : i < elems.length) :
    (elems.map fun e => e.key).getD i [] = (elems.getD i ⟨[], 0⟩).key := by
  rw [List.getD, List.getD, List.get?_map]
  cases he : elems.get? i with
  | none =>
    exact absurd (List.get?_eq_none.mp he) (by omega)
  | some e => rfl

/-- An in-range `getD` is a member. -/
theorem getD_mem_branch (elems : List BranchElement) (i : Nat) (hi : i < elems.length) :
    elems.getD i ⟨[], 0⟩ ∈ elems := by
  rw [List.getD]
  cases he : elems.get? i with
  | none => exact absurd (List.get?_eq_none.mp he) (by omega)
  | some e => exact List.get?_mem he

/-- C8: at a branch page with at least one, sorted, element list, the lookup
binary-searches the element keys and descends into exactly the single child at
the computed index: the matched index on an exact hit, and
`max(0, insertion_point - 1)` (natural subtraction) on a miss, where the
insertion point is the number of keys strictly below the target. -/
theorem c8_branch_descent (file : Bytes) (ps fuel : Nat) (buckets : List Bytes)
    (key : Bytes) (pg : Nat) (dp : DbPage) (elems : List BranchElement)
    (hread : readPage file ps pg = .ok (.ok dp))
    (helem : dp.elem = some (.Branch elems))
    (hne : elems ≠ [])
    (hsort : strictSorted (elems.map fun e => e.key) = true) :
    (branchIndex elems key < elems.length ∧
     getKeyValueInner file ps (fuel + 1) buckets key pg =
       getKeyValueInner file ps fuel buckets key
         ((elems.getD (branchIndex elems key) ⟨[], 0⟩).pgid)) ∧
    (∀ i, i < elems.length → (elems.getD i ⟨[], 0⟩).key = key → branchIndex elems key = i) ∧
    ((∀ e ∈ elems, e.key ≠ key) →
      branchIndex elems key = insertionPoint (elems.map fun e => e.key) key - 1) := by
  have hp : (elems.map fun e => e.key).Pairwise byteLt := strictSorted_pairwise _ hsort
  have hlenm : (elems.map fun e => e.key).length = elems.length := List.length_map _ _
  have hpos : 0 < elems.length := List.length_pos.mpr hne
  have hidx : branchIndex elems key < elems.length := by
    unfold branchIndex
    have h := rustBS_spec (elems.map fun e => e.key) key hp
    cases hres : rustBinarySearch (elems.map fun e => e.key) key with
    | found i =>
      rw [hres] at h
      show i < elems.length
      have := h.1
      omega
    | notFound ins =>
      rw [hres] at h
      show (if ins > 0 then ins - 1 else 0) < elems.length
      have := h.1
      split <;> omega
  refine ⟨⟨hidx, ?_⟩, ?_, ?_⟩
  · -- step equality
    have hget : elems.get? (branchIndex elems key) =
        some (elems.getD (branchIndex elems key) ⟨[], 0⟩) := by
      rw [List.getD]
      cases he : elems.get? (branchIndex elems key) with
      | none => exact absurd (List.get?_eq_none.mp he) (by omega)
      | some e => rfl
    rw [getKeyValueInner]
    rw [hread]
    simp only [helem, hget]
  · -- hit
    intro i hi hk
    have hfound := rustBS_hit (elems.map fun e => e.key) key i hp (by omega)
      (by rw [map_key_getD elems i hi, hk])
    unfold branchIndex
    rw [hfound]
  · -- miss
    intro hmiss
    have hm : ∀ j, j < (elems.map fun e => e.key).length →
        (elems.map fun e => e.key).getD j [] ≠ key := by
      intro j hj
      rw [map_key_getD elems j (by omega)]
      exact hmiss _ (getD_mem_branch elems j (by omega))
    obtain ⟨hres, hle⟩ := rustBS_miss (elems.map fun e => e.key) key hp hm
    unfold branchIndex
    rw [hres]
    show (if insertionPoint (elems.map fun e => e.key) key > 0
          then insertionPoint (elems.map fun e => e.key) key - 1 else 0) =
        insertionPoint (elems.map fun e => e.key) key - 1
    split
    · rfl
    · omega

/-- Witness for C8: the two-element branch page of `brFile`, target key `[98]`
(between the two keys). -/
theorem c8_branch_descent_witness :
    (branchIndex brElems [98] < brElems.length ∧
     getKeyValueInner brFile 50 (0 + 1) [] [98] 0 =
       getKeyValueInner brFile 50 0 [] [98]
         ((brElems.getD (branchIndex brElems [98]) ⟨[], 0⟩).pgid)) ∧
    (∀ i, i < brElems.length → (brElems.getD i ⟨[], 0⟩).key = [98] →
      branchIndex brElems [98] = i) ∧
    ((∀ e ∈ brElems, e.key ≠ [98]) →
      branchIndex brElems [98] = insertionPoint (brElems.map fun e => e.key) [98] - 1) :=
  c8_branch_descent brFile 50 0 [] [98] 0 dpBr brElems (by decide) (by decide)
    (by decide) (by decide)

end Ancla
